import Mathlib

/-!
Verification of the native-instruction abstraction layer
(`src/hotspot/cpu/x86/nativeInst_x86.hpp`).

Embedding conventions:
* Code memory is byte-addressed, `Mem : Nat → Nat`; a byte read (`ubyte_at`)
  reduces the cell mod 256, a byte store writes the value mod 256.
* Machine integers (`jint`, `intptr_t`) are represented by their unsigned
  bit patterns (`Nat` below `2^32` resp. `2^64`); `sext32` / `sext64` give the
  signed value of a pattern.  Bitwise operations of the source on `int32_t`
  values are expressed on the pattern: for `x` a 32-bit pattern,
  `x & 0xffffff` and `(x >> 24) & 0xff` (arithmetic shift) of the signed
  value coincide with the same `Nat` operations on the pattern.
* Addresses are 64-bit pointers: pointer arithmetic wraps mod `2^64`, and the
  C expression `(address)-1` is the pattern `2^64 - 1`.
* Every mutating primitive of `NativeInstruction` returns the new memory
  together with the list of events it performs (raw stores and invocations of
  the `wrote` instruction-cache coherency hook), so that ordering claims
  about the hook are statable.
-/

namespace NativeInst

/-- Byte-addressed code memory: the byte stored at each address. -/
def Mem : Type := Nat → Nat

/-- u_char ubyte_at(int offset) : the unsigned byte at `a + off`. -/
def ubyte_at (m : Mem) (a off : Nat) : Nat := m (a + off) % 256

/-- The unsigned 32-bit pattern of `jint int_at(offset)`: four bytes,
little-endian (x86). -/
def u32_at (m : Mem) (a off : Nat) : Nat :=
  ubyte_at m a off + 256 * ubyte_at m a (off + 1) +
    65536 * ubyte_at m a (off + 2) + 16777216 * ubyte_at m a (off + 3)

/-- The unsigned 64-bit pattern of `intptr_t ptr_at(offset)`: eight bytes,
little-endian (x86). -/
def u64_at (m : Mem) (a off : Nat) : Nat :=
  u32_at m a off + 4294967296 * u32_at m a (off + 4)

/-- Signed (two's-complement) value of a 32-bit pattern. -/
def sext32 (w : Nat) : Int :=
  if w < 2147483648 then (w : Int) else (w : Int) - 4294967296

/-- Signed (two's-complement) value of a 64-bit pattern. -/
def sext64 (w : Nat) : Int :=
  if w < 9223372036854775808 then (w : Int) else (w : Int) - 18446744073709551616

/-- The C cast `(jint)i` of a 64-bit signed value: truncate to the low 32
bits, reinterpret as signed. -/
def toInt32 (i : Int) : Int := sext32 ((i % 4294967296).toNat)

/-- Events performed by the mutating primitives: a raw store of `len` bytes
at an offset, and an invocation `wrote(offset)` of the instruction-cache
coherency hook. -/
inductive Event where
  | store (offset len : Nat)
  | wrote (offset : Nat)
deriving DecidableEq

/-- Store one byte at absolute address `p`. -/
def writeByte (m : Mem) (p c : Nat) : Mem :=
  fun q => if q = p then c % 256 else m q

/-- Store a 32-bit pattern at absolute address `p`, little-endian. -/
def store32 (m : Mem) (p w : Nat) : Mem :=
  fun q =>
    if q = p then w % 256
    else if q = p + 1 then w / 256 % 256
    else if q = p + 2 then w / 65536 % 256
    else if q = p + 3 then w / 16777216 % 256
    else m q

/-- Store a 64-bit pattern at absolute address `p`, little-endian. -/
def store64 (m : Mem) (p w : Nat) : Mem :=
  store32 (store32 m p w) (p + 4) (w / 4294967296)

/-- void set_char_at(int offset, u_char c) \{ *addr_at(offset) = c; wrote(offset); \} -/
def set_char_at (m : Mem) (a off c : Nat) : Mem × List Event :=
  (writeByte m (a + off) c, [Event.store off 1, Event.wrote off])

/-- void set_int_at(int offset, jint i) \{ *(jint*)addr_at(offset) = i; wrote(offset); \} -/
def set_int_at (m : Mem) (a off : Nat) (i : Int) : Mem × List Event :=
  (store32 m (a + off) ((i % 4294967296).toNat), [Event.store off 4, Event.wrote off])

/-- void set_ptr_at(int offset, intptr_t ptr) \{ *(intptr_t*)addr_at(offset) = ptr; wrote(offset); \} -/
def set_ptr_at (m : Mem) (a off : Nat) (p : Int) : Mem × List Event :=
  (store64 m (a + off) ((p % 18446744073709551616).toNat),
   [Event.store off 8, Event.wrote off])

/-- void set_oop_at(int offset, oop o) \{ *(oop*)addr_at(offset) = o; wrote(offset); \} -/
def set_oop_at (m : Mem) (a off : Nat) (o : Int) : Mem × List Event :=
  (store64 m (a + off) ((o % 18446744073709551616).toNat),
   [Event.store off 8, Event.wrote off])

/-- bool has_rex2_prefix() \{ return ubyte_at(0) == Assembler::REX2; \}
(`Assembler::REX2 = 0xd5`, the two-byte extended prefix marker). -/
def has_rex2 (m : Mem) (a : Nat) : Bool := ubyte_at m a 0 == 0xd5

/-- Modelled from the spec: the prefix byte constants of the external encoder
collaborator (`Assembler`, whose header is not part of the given sources):
the one-byte REX prefix. -/
def REX : Nat := 0x40

/-- Modelled from the spec: the REX-extended-base prefix byte
(`Assembler::REX_B`). -/
def REX_B : Nat := 0x41

/-- Modelled from the spec: the REX2 prefix marker byte (`Assembler::REX2`),
first byte of the two-byte REX2 prefix. -/
def REX2 : Nat := 0xd5

-- Evaluation lemmas for the byte stores.

theorem store32_at0 (m : Mem) (p w : Nat) : store32 m p w p = w % 256 := by
  unfold store32; rw [if_pos rfl]

theorem store32_at1 (m : Mem) (p w : Nat) : store32 m p w (p + 1) = w / 256 % 256 := by
  unfold store32; rw [if_neg (by omega), if_pos rfl]

theorem store32_at2 (m : Mem) (p w : Nat) : store32 m p w (p + 2) = w / 65536 % 256 := by
  unfold store32; rw [if_neg (by omega), if_neg (by omega), if_pos rfl]

theorem store32_at3 (m : Mem) (p w : Nat) : store32 m p w (p + 3) = w / 16777216 % 256 := by
  unfold store32; rw [if_neg (by omega), if_neg (by omega), if_neg (by omega), if_pos rfl]

theorem store32_other (m : Mem) (p w q : Nat)
    (h0 : q ≠ p) (h1 : q ≠ p + 1) (h2 : q ≠ p + 2) (h3 : q ≠ p + 3) :
    store32 m p w q = m q := by
  unfold store32; rw [if_neg h0, if_neg h1, if_neg h2, if_neg h3]

/-- Reading back the 32-bit word just stored yields the pattern mod `2^32`. -/
theorem u32_at_store32 (m : Mem) (a off w : Nat) :
    u32_at (store32 m (a + off) w) a off = w % 4294967296 := by
  unfold u32_at ubyte_at
  rw [show a + (off + 1) = (a + off) + 1 by omega,
      show a + (off + 2) = (a + off) + 2 by omega,
      show a + (off + 3) = (a + off) + 3 by omega,
      store32_at0, store32_at1, store32_at2, store32_at3]
  omega

theorem store64_other (m : Mem) (p w q : Nat) (h : q < p) :
    store64 m p w q = m q := by
  unfold store64
  rw [store32_other _ _ _ _ (by omega) (by omega) (by omega) (by omega),
      store32_other _ _ _ _ (by omega) (by omega) (by omega) (by omega)]

/-- Reading back the 64-bit word just stored yields the pattern mod `2^64`. -/
theorem u64_at_store64 (m : Mem) (a off w : Nat) :
    u64_at (store64 m (a + off) w) a off = w % 18446744073709551616 := by
  have houter : ∀ q, q < a + (off + 4) →
      store32 (store32 m (a + off) w) (a + (off + 4)) (w / 4294967296) q =
        store32 m (a + off) w q := by
    intro q hq
    exact store32_other _ _ _ _ (by omega) (by omega) (by omega) (by omega)
  unfold u64_at store64
  rw [show a + off + 4 = a + (off + 4) by omega]
  rw [u32_at_store32]
  unfold u32_at ubyte_at
  rw [houter (a + off) (by omega), houter (a + (off + 1)) (by omega),
      houter (a + (off + 2)) (by omega), houter (a + (off + 3)) (by omega)]
  rw [show a + (off + 1) = (a + off) + 1 by omega,
      show a + (off + 2) = (a + off) + 2 by omega,
      show a + (off + 3) = (a + off) + 3 by omega,
      store32_at0, store32_at1, store32_at2, store32_at3]
  omega

/-- The guarantee test `disp == (intptr_t)(jint)disp` of the source holds
exactly when `disp` fits in a signed 32-bit integer. -/
theorem toInt32_eq_self_iff (i : Int) :
    toInt32 i = i ↔ -2147483648 ≤ i ∧ i < 2147483648 := by
  unfold toInt32 sext32
  split <;> omega

/-- Sign-extension of the truncated pattern restores an in-range value. -/
theorem sext32_trunc (i : Int) (h0 : -2147483648 ≤ i) (h1 : i < 2147483648) :
    sext32 ((i % 4294967296).toNat) = i := by
  unfold sext32
  split <;> omega

theorem sext64_trunc (i : Int) (h0 : -9223372036854775808 ≤ i)
    (h1 : i < 9223372036854775808) :
    sext64 ((i % 18446744073709551616).toNat) = i := by
  unfold sext64
  split <;> omega

namespace NativeCall

/-- NativeCall::displacement_offset = 1. -/
def displacement_offset : Nat := 1

/-- NativeCall::return_address_offset = 5. -/
def return_address_offset : Nat := 5

/-- address return_address() const \{ return addr_at(return_address_offset); \}
(64-bit pointer arithmetic wraps). -/
def return_address (a : Nat) : Nat := (a + return_address_offset) % 18446744073709551616

/-- int displacement() const \{ return (jint) int_at(displacement_offset); \} -/
def displacement (m : Mem) (a : Nat) : Int := sext32 (u32_at m a displacement_offset)

/-- Modelled from the spec: `destination = return_address + displacement`.
(`NativeCall::destination()` is only declared in the given header; its body
lives in nativeInst_x86.cpp, which is not among the sources.) -/
def destination (m : Mem) (a : Nat) : Nat :=
  (((return_address a : Int) + displacement m a) % 18446744073709551616).toNat

/-- void set_destination(address dest):
`intptr_t disp = dest - return_address();`
`guarantee(disp == (intptr_t)(jint)disp, "must be 32-bit offset");`
`set_int_at(displacement_offset, (int)(dest - return_address()));`
A failed guarantee aborts the VM before anything is written; this is the
`none` result. -/
def set_destination (m : Mem) (a dest : Nat) : Option (Mem × List Event) :=
  let disp : Int := (dest : Int) - (return_address a : Int)
  if toInt32 disp = disp then
    some (set_int_at m a displacement_offset (toInt32 ((dest : Int) - (return_address a : Int))))
  else
    none

end NativeCall

namespace NativeJump

/-- NativeJump::data_offset = 1. -/
def data_offset : Nat := 1

/-- NativeJump::next_instruction_offset = 5. -/
def next_instruction_offset : Nat := 5

/-- address next_instruction_address() const \{ return addr_at(next_instruction_offset); \} -/
def next_instruction_address (a : Nat) : Nat :=
  (a + next_instruction_offset) % 18446744073709551616

/-- The destination actually stored in the instruction:
`address dest = (int_at(data_offset)+next_instruction_address());`
(the value before the jump-to-self sentinel substitution). -/
def stored_destination (m : Mem) (a : Nat) : Nat :=
  (((next_instruction_address a : Int) + sext32 (u32_at m a data_offset)) %
    18446744073709551616).toNat

/-- address jump_destination() const:
`dest = (dest == (address) this) ? (address) -1 : dest; return dest;`
(`(address)-1` is the pointer pattern `2^64 - 1`). -/
def jump_destination (m : Mem) (a : Nat) : Nat :=
  let dest := stored_destination m a
  if dest = a then 18446744073709551615 else dest

/-- void set_jump_destination(address dest):
`intptr_t val = dest - next_instruction_address();`
`if (dest == (address) -1) { val = -5; }`
`set_int_at(data_offset, (jint)val);`
(the `assert` on the magnitude of `val` is debug-only and vacuous on the
sentinel path). -/
def set_jump_destination (m : Mem) (a dest : Nat) : Mem × List Event :=
  let val : Int := (dest : Int) - (next_instruction_address a : Int)
  let val := if dest = 18446744073709551615 then -5 else val
  set_int_at m a data_offset val

end NativeJump

/-- All-zero code memory, used to instantiate universally quantified
theorems at a concrete input. -/
def memZero : Mem := fun _ => 0

/-- Claim C1: for every NativeCall and target whose displacement from the
return address fits in a signed 32-bit integer, `set_destination(target)`
followed by `destination()` returns `target`; for every target whose
displacement does not fit, `set_destination` fails the range guarantee and
writes nothing. -/
theorem C1_call_set_destination_roundtrip (m : Mem) (a dest : Nat)
    (hdest : dest < 18446744073709551616) :
    ((-2147483648 ≤ (dest : Int) - (NativeCall.return_address a : Int) ∧
      (dest : Int) - (NativeCall.return_address a : Int) < 2147483648) →
      ∃ m2 ev, NativeCall.set_destination m a dest = some (m2, ev) ∧
        NativeCall.destination m2 a = dest) ∧
    (¬ (-2147483648 ≤ (dest : Int) - (NativeCall.return_address a : Int) ∧
      (dest : Int) - (NativeCall.return_address a : Int) < 2147483648) →
      NativeCall.set_destination m a dest = none) := by
  constructor
  · rintro ⟨h0, h1⟩
    have hfit : toInt32 ((dest : Int) - (NativeCall.return_address a : Int)) =
        (dest : Int) - (NativeCall.return_address a : Int) :=
      (toInt32_eq_self_iff _).mpr ⟨h0, h1⟩
    refine ⟨(set_int_at m a NativeCall.displacement_offset
        (toInt32 ((dest : Int) - (NativeCall.return_address a : Int)))).1,
      (set_int_at m a NativeCall.displacement_offset
        (toInt32 ((dest : Int) - (NativeCall.return_address a : Int)))).2, ?_, ?_⟩
    · unfold NativeCall.set_destination
      rw [if_pos hfit]
    · unfold NativeCall.destination NativeCall.displacement set_int_at
      rw [hfit]
      unfold NativeCall.displacement_offset
      rw [u32_at_store32]
      have hle : (((dest : Int) - (NativeCall.return_address a : Int)) %
          4294967296).toNat % 4294967296 =
          (((dest : Int) - (NativeCall.return_address a : Int)) % 4294967296).toNat := by
        omega
      rw [hle, sext32_trunc _ h0 h1]
      omega
  · intro h
    unfold NativeCall.set_destination
    rw [if_neg]
    intro hc
    exact h ((toInt32_eq_self_iff _).mp hc)

/-- Witness for C1: a concrete in-range call patch round-trips
(memory of zeroes, call at address 0, target 100). -/
theorem C1_witness :
    ∃ m2 ev, NativeCall.set_destination memZero 0 100 = some (m2, ev) ∧
      NativeCall.destination m2 0 = 100 :=
  (C1_call_set_destination_roundtrip memZero 0 100 (by decide)).1 (by decide)

/-- A jump at the very top of the address space: opcode 0xE9 with stored
displacement 4, so the computed destination is the pointer `2^64 - 1`. -/
def memJumpTop : Mem := fun q =>
  if q = 18446744073709551606 then 0xe9
  else if q = 18446744073709551607 then 4
  else 0

/-- Counterexample to claim C2 as stated: for the jump at address
`2^64 - 10` with stored displacement 4, `jump_destination()` returns the
sentinel `(address)-1` although the stored destination (`2^64 - 1`) differs
from the jump's own instruction address, refuting the "only if" direction of
the claimed equivalence. -/
theorem C2_counterexample :
    NativeJump.jump_destination memJumpTop 18446744073709551606 = 18446744073709551615 ∧
    NativeJump.stored_destination memJumpTop 18446744073709551606 ≠ 18446744073709551606 := by
  constructor
  · unfold NativeJump.jump_destination
    rw [if_neg (by decide)]
    decide
  · decide

/-- Claim C2 (amended): `jump_destination()` returns the sentinel address
`-1` if and only if the stored destination equals the jump's own instruction
address or is itself the address `-1` (the sentinel's own pointer pattern);
and `set_jump_destination(-1)` writes the self-referential displacement `-5`,
after which `jump_destination()` yields the sentinel `-1` again. -/
theorem C2_jump_sentinel (m : Mem) (a : Nat) (ha : a < 18446744073709551616) :
    (NativeJump.jump_destination m a = 18446744073709551615 ↔
      NativeJump.stored_destination m a = a ∨
      NativeJump.stored_destination m a = 18446744073709551615) ∧
    sext32 (u32_at (NativeJump.set_jump_destination m a 18446744073709551615).1 a
      NativeJump.data_offset) = -5 ∧
    NativeJump.jump_destination
      (NativeJump.set_jump_destination m a 18446744073709551615).1 a =
      18446744073709551615 := by
  have hw : u32_at (NativeJump.set_jump_destination m a 18446744073709551615).1 a
      NativeJump.data_offset = 4294967291 := by
    show u32_at (store32 m (a + NativeJump.data_offset)
      (((-5 : Int) % 4294967296).toNat)) a NativeJump.data_offset = 4294967291
    rw [u32_at_store32]
    decide
  have hsext : sext32 (4294967291 : Nat) = -5 := by decide
  have hstored : NativeJump.stored_destination
      (NativeJump.set_jump_destination m a 18446744073709551615).1 a = a := by
    unfold NativeJump.stored_destination
    rw [hw, hsext]
    unfold NativeJump.next_instruction_address NativeJump.next_instruction_offset
    omega
  refine ⟨?_, hw ▸ hsext, ?_⟩
  · unfold NativeJump.jump_destination
    by_cases hd : NativeJump.stored_destination m a = a
    · rw [hd, if_pos rfl]
      simp [hd]
    · rw [if_neg hd]
      simp [hd]
  · unfold NativeJump.jump_destination
    rw [hstored, if_pos rfl]

/-- Witness for C2 (amended) at memory of zeroes and jump address 0: the
stored destination is 5 (neither self nor sentinel) so no sentinel is
reported, and round-tripping the sentinel through
`set_jump_destination` yields the sentinel. -/
theorem C2_witness :
    (NativeJump.jump_destination memZero 0 = 18446744073709551615 ↔
      NativeJump.stored_destination memZero 0 = 0 ∨
      NativeJump.stored_destination memZero 0 = 18446744073709551615) ∧
    sext32 (u32_at (NativeJump.set_jump_destination memZero 0 18446744073709551615).1 0
      NativeJump.data_offset) = -5 ∧
    NativeJump.jump_destination
      (NativeJump.set_jump_destination memZero 0 18446744073709551615).1 0 =
      18446744073709551615 :=
  C2_jump_sentinel memZero 0 (by decide)

/-- inline bool NativeInstruction::is_safepoint_poll():
optionally skip a REX2 prefix (2 bytes) or a REX_B prefix (1 byte), then
require the test opcode `NativeTstRegMem::instruction_code_memXregl = 0x85`
and a ModRM byte whose reg field (`modrm_mask = 0x38`) selects rax
(`modrm_reg = 0x00`). -/
def is_safepoint_poll (m : Mem) (a : Nat) : Bool :=
  let has_rex_b := ubyte_at m a 0 == REX_B
  let test_offset := if has_rex2 m a then 2 else if has_rex_b then 1 else 0
  let is_test_opcode := ubyte_at m a test_offset == 0x85
  let is_rax_target := (ubyte_at m a (test_offset + 1)) &&& 0x38 == 0x00
  is_test_opcode && is_rax_target

/-- inline bool NativeInstruction::is_call_reg():
`ubyte_at(0) == 0xFF || (ubyte_at(1) == 0xFF && (ubyte_at(0) == Assembler::REX
|| ubyte_at(0) == Assembler::REX_B))` (`NativeCallReg::instruction_code = 0xFF`). -/
def is_call_reg (m : Mem) (a : Nat) : Bool :=
  ubyte_at m a 0 == 0xFF ||
    (ubyte_at m a 1 == 0xFF && (ubyte_at m a 0 == REX || ubyte_at m a 0 == REX_B))

/-- Claim C4: `is_safepoint_poll` holds exactly when, after skipping a 2-byte
REX2 prefix (first byte `0xd5`) or a 1-byte REX-extended-base prefix (first
byte `0x41`) and 0 bytes otherwise, the byte at the resulting offset is the
test opcode `0x85` and the following ModRM byte masked with `0x38` selects
the sentinel register rax (`0x00`). -/
theorem C4_safepoint_poll_iff (m : Mem) (a : Nat) :
    is_safepoint_poll m a = true ↔
      (let skip := if ubyte_at m a 0 = REX2 then 2
                   else if ubyte_at m a 0 = REX_B then 1 else 0
       ubyte_at m a skip = 0x85 ∧ (ubyte_at m a (skip + 1)) &&& 0x38 = 0x00) := by
  by_cases h2 : ubyte_at m a 0 = 0xd5 <;> by_cases hb : ubyte_at m a 0 = 0x41 <;>
    simp [is_safepoint_poll, has_rex2, REX2, REX_B, h2, hb]

/-- Claim C8: `is_call_reg` holds exactly when the first byte is the
indirect-call opcode `0xFF`, or the first byte is the REX (`0x40`) or
REX-extended-base (`0x41`) prefix and the following byte is `0xFF`. -/
theorem C8_call_reg_iff (m : Mem) (a : Nat) :
    is_call_reg m a = true ↔
      (ubyte_at m a 0 = 0xFF ∨
        ((ubyte_at m a 0 = REX ∨ ubyte_at m a 0 = REX_B) ∧ ubyte_at m a 1 = 0xFF)) := by
  simp only [is_call_reg, REX, REX_B, Bool.or_eq_true, Bool.and_eq_true, beq_iff_eq]
  tauto

/-- Modelled from the spec: the interleaving model of `replace_mt_safe`
(`NativeCall::replace_mt_safe` / `NativeGeneralJump::replace_mt_safe` are
only declared in the given header; their bodies live in nativeInst_x86.cpp,
which is not among the sources).  Per §4.4/§5 of the spec the patcher swaps
the whole same-sized instruction with a single hardware-atomic wide store,
and instruction fetch of the patched unit is likewise atomic.  A step is
either the patcher's one atomic swap or an atomic fetch-and-decode by one of
the reader threads. -/
inductive PatchLabel where
  | patch
  | read (reader : Nat)

/-- State of the interleaving model: the bytes currently at the patched
address, whether the patcher has already performed its swap, and every
observation `(reader, bytes)` made so far. -/
structure PatchState where
  mem : List Nat
  patched : Bool
  obs : List (Nat × List Nat)

/-- One interleaving step of `replace_mt_safe` against concurrent decoders:
the patcher's single atomic store of the replacement bytes, or an atomic
fetch of the current bytes by reader `i`. -/
def patchStep (newBytes : List Nat) (s : PatchState) (l : PatchLabel) : PatchState :=
  match l with
  | PatchLabel.patch =>
      if s.patched then s else { s with mem := newBytes, patched := true }
  | PatchLabel.read i => { s with obs := s.obs ++ [(i, s.mem)] }

/-- Run an arbitrary interleaving from the unpatched initial state. -/
def patchRun (oldBytes newBytes : List Nat) (tr : List PatchLabel) : PatchState :=
  tr.foldl (patchStep newBytes) { mem := oldBytes, patched := false, obs := [] }

/-- Invariant of the interleaving model: along any interleaving, every
observation recorded so far is the full old instruction or the full new one,
provided the current bytes are old-or-new and the observations so far are. -/
theorem patch_obs_invariant (oldBytes newBytes : List Nat) (tr : List PatchLabel)
    (s : PatchState) (hmem : s.mem = oldBytes ∨ s.mem = newBytes)
    (hobs : ∀ o ∈ s.obs, o.2 = oldBytes ∨ o.2 = newBytes) :
    ∀ o ∈ (tr.foldl (patchStep newBytes) s).obs, o.2 = oldBytes ∨ o.2 = newBytes := by
  induction tr generalizing s with
  | nil => exact hobs
  | cons l rest ih =>
      rw [List.foldl_cons]
      cases l with
      | patch =>
          by_cases hp : s.patched
          · rw [show patchStep newBytes s PatchLabel.patch = s by
              unfold patchStep; rw [if_pos hp]]
            exact ih s hmem hobs
          · rw [show patchStep newBytes s PatchLabel.patch =
                { s with mem := newBytes, patched := true } by
              unfold patchStep; rw [if_neg hp]]
            exact ih _ (Or.inr rfl) hobs
      | read i =>
          refine ih _ hmem ?_
          intro o ho
          rcases List.mem_append.mp ho with h | h
          · exact hobs o h
          · rcases List.mem_singleton.mp h with rfl
            exact hmem

/-- Claim C3: under an arbitrary interleaving of one patcher performing
`replace_mt_safe` (modelled, per the spec, as a single hardware-atomic store
of the same-sized replacement) and any number of readers atomically fetching
and decoding the same address, every reader observation is the complete old
instruction or the complete new instruction, never a mixture of bytes of
both. -/
theorem C3_replace_mt_safe_atomic (oldBytes newBytes : List Nat)
    (tr : List PatchLabel) (i : Nat) (bs : List Nat)
    (h : (i, bs) ∈ (patchRun oldBytes newBytes tr).obs) :
    bs = oldBytes ∨ bs = newBytes :=
  patch_obs_invariant oldBytes newBytes tr _ (Or.inl rfl) (by intro o ho; cases ho)
    (i, bs) h

/-- Witness for C3: in the interleaving read-patch-read over the 2-byte
instructions `[1, 2]` (old) and `[3, 4]` (new), reader 1 observes `[3, 4]`,
which the theorem forces to be one of the two complete instructions. -/
theorem C3_witness : ([3, 4] : List Nat) = [1, 2] ∨ ([3, 4] : List Nat) = [3, 4] :=
  C3_replace_mt_safe_atomic [1, 2] [3, 4]
    [PatchLabel.read 0, PatchLabel.patch, PatchLabel.read 1] 1 [3, 4] (by decide)

namespace NativePostCallNop

/-- NativePostCallNop::displacement_offset = 4. -/
def displacement_offset : Nat := 4

/-- bool check() const \{ return int_at(0) == 0x841f0f; \}
(pattern comparison: the constant is below `2^31`, so the signed 32-bit
comparison agrees with comparing the unsigned pattern). -/
def check (m : Mem) (a : Nat) : Bool := u32_at m a 0 == 0x841f0f

/-- bool decode(int32_t& oopmap_slot, int32_t& cb_offset) const:
`int32_t data = int_at(displacement_offset); if (data == 0) return false;`
`cb_offset = (data & 0xffffff); oopmap_slot = (data >> 24) & 0xff; return true;`
The 32-bit value is represented by its pattern; on 32-bit patterns
`data & 0xffffff` and the arithmetic-shift expression `(data >> 24) & 0xff`
agree with the same operations on the unsigned pattern.  The result is the
returned bool together with the final values of the two reference
out-parameters. -/
def decode (m : Mem) (a : Nat) (oopmap_slot cb_offset : Int) : Bool × Int × Int :=
  let data := u32_at m a displacement_offset
  if data = 0 then (false, oopmap_slot, cb_offset)
  else (true, ((data >>> 24) &&& 0xff : Nat), ((data &&& 0xffffff : Nat) : Int))

end NativePostCallNop

/-- inline NativePostCallNop* nativePostCallNop_at(address address):
returns the view when `check()` succeeds and nullptr otherwise. -/
def nativePostCallNop_at (m : Mem) (a : Nat) : Option Nat :=
  if NativePostCallNop.check m a then some a else none

/-- Claim C5: decode of an all-zero payload word reports "absent" (returns
false); decode of any non-zero payload succeeds with `cb_offset` equal to
bits 0-23 and `oopmap_slot` equal to bits 24-31 of the payload. -/
theorem C5_decode_fields (m : Mem) (a : Nat) (s c : Int) :
    (u32_at m a 4 = 0 → NativePostCallNop.decode m a s c = (false, s, c)) ∧
    (u32_at m a 4 ≠ 0 → NativePostCallNop.decode m a s c =
      (true, ((u32_at m a 4 / 16777216 % 256 : Nat) : Int),
        ((u32_at m a 4 % 16777216 : Nat) : Int))) := by
  constructor
  · intro h
    unfold NativePostCallNop.decode NativePostCallNop.displacement_offset
    rw [if_pos h]
  · intro h
    unfold NativePostCallNop.decode NativePostCallNop.displacement_offset
    rw [if_neg h]
    have hmask : u32_at m a 4 &&& 0xffffff = u32_at m a 4 % 16777216 := by
      have := Nat.and_pow_two_sub_one_eq_mod (u32_at m a 4) 24
      simpa using this
    have hhi : (u32_at m a 4 >>> 24) &&& 0xff = u32_at m a 4 / 16777216 % 256 := by
      have h1 : u32_at m a 4 >>> 24 = u32_at m a 4 / 16777216 := by
        rw [Nat.shiftRight_eq_div_pow]
      have h2 := Nat.and_pow_two_sub_one_eq_mod (u32_at m a 4 / 16777216) 8
      rw [h1]
      simpa using h2
    rw [hmask, hhi]

/-- Concrete memory whose post-call payload word (offset 4) is
`(5 << 24) | 0x123`, little-endian bytes `0x23 0x01 0x00 0x05`. -/
def memPayload : Mem := fun q => [0x0f, 0x1f, 0x84, 0x00, 0x23, 0x01, 0x00, 0x05].getD q 0

/-- Witness for C5: decode of the payload `(5 << 24) | 0x123` reports exactly
`oopmap_slot = 5` and `cb_offset = 0x123`, for arbitrary prior out-values. -/
theorem C5_witness : NativePostCallNop.decode memPayload 0 7 9 = (true, 5, 291) := by
  rw [(C5_decode_fields memPayload 0 7 9).2 (by decide)]
  decide

/-- Claim C10: when the payload word is zero, decode returns false and
leaves both out-parameters at their prior values, whatever those were. -/
theorem C10_decode_absent_frame (m : Mem) (a : Nat) (s c : Int)
    (h : u32_at m a 4 = 0) :
    NativePostCallNop.decode m a s c = (false, s, c) := by
  unfold NativePostCallNop.decode NativePostCallNop.displacement_offset
  rw [if_pos h]

/-- Witness for C10: on all-zero memory, decode leaves the prior out-values
`-3` and `17` untouched and reports absence. -/
theorem C10_witness : NativePostCallNop.decode memZero 0 (-3) 17 = (false, -3, 17) :=
  C10_decode_absent_frame memZero 0 (-3) 17 (by decide)

/-- Concrete memory whose first three bytes are the post-call check pattern
but whose fourth byte is nonzero. -/
def memCheck3 : Mem := fun q => [0x0f, 0x1f, 0x84, 0x01].getD q 0

/-- Counterexample to claim C6 as stated: the bytes `0x0F 0x1F 0x84 0x01`
match the 3-byte pattern at offset 0, yet `check()` fails (and
`nativePostCallNop_at` returns no view), because the code compares the full
4-byte word against `0x841f0f`, which also requires the fourth byte to be
zero. -/
theorem C6_counterexample :
    ubyte_at memCheck3 0 0 = 0x0f ∧ ubyte_at memCheck3 0 1 = 0x1f ∧
    ubyte_at memCheck3 0 2 = 0x84 ∧
    NativePostCallNop.check memCheck3 0 = false ∧
    nativePostCallNop_at memCheck3 0 = none := by decide

/-- Claim C6 (amended): `check()` succeeds exactly when the 4 bytes at
offset 0 are `0x0F 0x1F 0x84 0x00` — the 3-byte check pattern followed by a
mandatory zero byte; `nativePostCallNop_at` returns the view when the check
succeeds and a null result otherwise. -/
theorem C6_check_iff (m : Mem) (a : Nat) :
    (NativePostCallNop.check m a = true ↔
      ubyte_at m a 0 = 0x0f ∧ ubyte_at m a 1 = 0x1f ∧
      ubyte_at m a 2 = 0x84 ∧ ubyte_at m a 3 = 0x00) ∧
    (nativePostCallNop_at m a = some a ↔ NativePostCallNop.check m a = true) ∧
    (nativePostCallNop_at m a = none ↔ NativePostCallNop.check m a = false) := by
  refine ⟨?_, ?_, ?_⟩
  · simp only [NativePostCallNop.check, u32_at, ubyte_at, beq_iff_eq,
      Nat.zero_add, Nat.add_zero]
    omega
  · unfold nativePostCallNop_at
    by_cases h : NativePostCallNop.check m a = true
    · rw [if_pos h]; simp [h]
    · rw [if_neg h]; simp [h]
  · unfold nativePostCallNop_at
    by_cases h : NativePostCallNop.check m a = true
    · rw [if_pos h]; simp [h]
    · rw [if_neg h]; simp [Bool.eq_false_iff, h]

namespace NativeMovConstReg

/-- static const int rex_size = 1. -/
def rex_size : Nat := 1

/-- static const int rex2_size = 2. -/
def rex2_size : Nat := 2

/-- Modelled from the spec: `wordSize` of the runtime (defined outside the
given sources); the target loads a full-width (64-bit) immediate, so the
word size is 8 bytes. -/
def wordSize : Nat := 8

/-- instruction_size_rex = 1 + rex_size + wordSize. -/
def instruction_size_rex : Nat := 1 + rex_size + wordSize

/-- instruction_size_rex2 = 1 + rex2_size + wordSize. -/
def instruction_size_rex2 : Nat := 1 + rex2_size + wordSize

/-- data_offset_rex = 1 + rex_size. -/
def data_offset_rex : Nat := 1 + rex_size

/-- data_offset_rex2 = 1 + rex2_size. -/
def data_offset_rex2 : Nat := 1 + rex2_size

/-- int instruction_size() const: REX2 layout when the first byte is the
REX2 prefix, plain REX layout otherwise. -/
def instruction_size (m : Mem) (a : Nat) : Nat :=
  if has_rex2 m a then instruction_size_rex2 else instruction_size_rex

/-- int next_inst_offset() const (`next_instruction_offset_rex2` /
`next_instruction_offset_rex` equal the corresponding sizes). -/
def next_inst_offset (m : Mem) (a : Nat) : Nat :=
  if has_rex2 m a then instruction_size_rex2 else instruction_size_rex

/-- int data_byte_offset() const. -/
def data_byte_offset (m : Mem) (a : Nat) : Nat :=
  if has_rex2 m a then data_offset_rex2 else data_offset_rex

/-- intptr_t data() const \{ return ptr_at(data_byte_offset()); \} -/
def data (m : Mem) (a : Nat) : Int := sext64 (u64_at m a (data_byte_offset m a))

/-- void set_data(intptr_t x) \{ set_ptr_at(data_byte_offset(), x); \} -/
def set_data (m : Mem) (a : Nat) (x : Int) : Mem × List Event :=
  set_ptr_at m a (data_byte_offset m a) x

end NativeMovConstReg

/-- A 64-bit store at offset 2 or beyond leaves the prefix byte, and hence
the REX2 test, unchanged. -/
theorem has_rex2_store64 (m : Mem) (a off w : Nat) (h : 2 ≤ off) :
    has_rex2 (store64 m (a + off) w) a = has_rex2 m a := by
  unfold has_rex2 ubyte_at
  rw [store64_other m (a + off) w (a + 0) (by omega)]

/-- A 64-bit store at offset 2 or beyond does not change which data offset
the prefix selects. -/
theorem data_byte_offset_store64 (m : Mem) (a off w : Nat) (h : 2 ≤ off) :
    NativeMovConstReg.data_byte_offset (store64 m (a + off) w) a =
      NativeMovConstReg.data_byte_offset m a := by
  unfold NativeMovConstReg.data_byte_offset
  rw [has_rex2_store64 m a off w h]

/-- Claim C7: an immediate-load-to-register decodes with the REX2 layout
(total size 11, data offset 3, next-instruction offset 11) when the first
byte is the REX2 prefix and with the plain-REX layout (size 10, data offset
2, next-instruction offset 10) otherwise; and `data()` after `set_data(x)`
returns `x` at the offset selected by the prefix actually present. -/
theorem C7_movconstreg_layout_roundtrip (m : Mem) (a : Nat) (x : Int)
    (hx : -9223372036854775808 ≤ x ∧ x < 9223372036854775808) :
    (has_rex2 m a = true →
      NativeMovConstReg.instruction_size m a = 11 ∧
      NativeMovConstReg.data_byte_offset m a = 3 ∧
      NativeMovConstReg.next_inst_offset m a = 11) ∧
    (has_rex2 m a = false →
      NativeMovConstReg.instruction_size m a = 10 ∧
      NativeMovConstReg.data_byte_offset m a = 2 ∧
      NativeMovConstReg.next_inst_offset m a = 10) ∧
    NativeMovConstReg.data (NativeMovConstReg.set_data m a x).1 a = x := by
  have hoff2 : 2 ≤ NativeMovConstReg.data_byte_offset m a := by
    unfold NativeMovConstReg.data_byte_offset NativeMovConstReg.data_offset_rex
      NativeMovConstReg.data_offset_rex2 NativeMovConstReg.rex_size
      NativeMovConstReg.rex2_size
    split <;> omega
  refine ⟨?_, ?_, ?_⟩
  · intro h
    simp [NativeMovConstReg.instruction_size, NativeMovConstReg.data_byte_offset,
      NativeMovConstReg.next_inst_offset, NativeMovConstReg.instruction_size_rex2,
      NativeMovConstReg.data_offset_rex2, NativeMovConstReg.rex2_size,
      NativeMovConstReg.wordSize, h]
  · intro h
    simp [NativeMovConstReg.instruction_size, NativeMovConstReg.data_byte_offset,
      NativeMovConstReg.next_inst_offset, NativeMovConstReg.instruction_size_rex,
      NativeMovConstReg.data_offset_rex, NativeMovConstReg.rex_size,
      NativeMovConstReg.wordSize, h]
  · have key : (NativeMovConstReg.set_data m a x).1 =
        store64 m (a + NativeMovConstReg.data_byte_offset m a)
          ((x % 18446744073709551616).toNat) := rfl
    unfold NativeMovConstReg.data
    rw [key]
    rw [data_byte_offset_store64 m a _ _ hoff2, u64_at_store64]
    have hself : (x % 18446744073709551616).toNat % 18446744073709551616 =
        (x % 18446744073709551616).toNat := by omega
    rw [hself]
    exact sext64_trunc x hx.1 hx.2

/-- Code memory whose first byte is the REX2 prefix marker `0xd5`. -/
def memRex2 : Mem := fun q => if q = 0 then 0xd5 else 0

/-- Witness for C7: both encodings of a representative instruction — without
a REX2 prefix (all-zero memory) size 10 / data offset 2 and the value 42
round-trips, with a REX2 prefix size 11 / data offset 3 and the value -7
round-trips. -/
theorem C7_witness :
    (NativeMovConstReg.instruction_size memZero 0 = 10 ∧
      NativeMovConstReg.data_byte_offset memZero 0 = 2 ∧
      NativeMovConstReg.next_inst_offset memZero 0 = 10) ∧
    NativeMovConstReg.data (NativeMovConstReg.set_data memZero 0 42).1 0 = 42 ∧
    (NativeMovConstReg.instruction_size memRex2 0 = 11 ∧
      NativeMovConstReg.data_byte_offset memRex2 0 = 3 ∧
      NativeMovConstReg.next_inst_offset memRex2 0 = 11) ∧
    NativeMovConstReg.data (NativeMovConstReg.set_data memRex2 0 (-7)).1 0 = -7 :=
  ⟨(C7_movconstreg_layout_roundtrip memZero 0 42 (by decide)).2.1 (by decide),
   (C7_movconstreg_layout_roundtrip memZero 0 42 (by decide)).2.2,
   (C7_movconstreg_layout_roundtrip memRex2 0 (-7) (by decide)).1 (by decide),
   (C7_movconstreg_layout_roundtrip memRex2 0 (-7) (by decide)).2.2⟩

/-- Claim C9: every mutating write primitive (`set_char_at`, `set_int_at`,
`set_ptr_at`, `set_oop_at`) performs its raw store and then invokes the
instruction-cache coherency hook `wrote(offset)`, for every offset and
value: each setter's event trace is exactly its store immediately followed
by `wrote(offset)`, so no setter stores bytes without subsequently invoking
the hook. -/
theorem C9_setters_invoke_wrote (m : Mem) (a off c : Nat) (i p o : Int) :
    (set_char_at m a off c).2 = [Event.store off 1, Event.wrote off] ∧
    (set_int_at m a off i).2 = [Event.store off 4, Event.wrote off] ∧
    (set_ptr_at m a off p).2 = [Event.store off 8, Event.wrote off] ∧
    (set_oop_at m a off o).2 = [Event.store off 8, Event.wrote off] :=
  ⟨rfl, rfl, rfl, rfl⟩

end NativeInst
